import Mathlib

/-!
Shallow embedding of the workforce-management portfolio code
(`wfm_math.py`, `forecast_and_simulate.py`, `generate_sample_data.py`).

Python floats are modelled as exact rationals (`ℚ`); `float("inf")` is
modelled as `⊤` in `WithTop ℚ`.  `math.exp` is irrational, so functions
that call it take an explicit argument `E : ℚ → ℚ` standing for the
exponential; theorems that need facts about `exp` assume only that `E`
is monotone and positive, which the real exponential satisfies.
A separate model (`erlang_c_prob_wait_float`) tracks IEEE-754 double
overflow: `float(int)` and `a ** k` raise `OverflowError` in Python when
the exact result reaches `2 ^ 1024`.
-/

/-- The clamp `max(0.0, min(1.0, x))` used by `erlang_c_prob_wait` and
`erlang_c_service_level` in `wfm_math.py`. -/
def clamp01 (x : ℚ) : ℚ := max 0 (min 1 x)

/-- The partial sum `Sum_{k=0}^{n-1} (a^k / k!)` — the loop accumulating `s` in
`erlang_c_prob_wait` (`wfm_math.py` lines 49-51). -/
def erlangSum (a : ℚ) (n : ℕ) : ℚ :=
  ∑ k ∈ Finset.range n, a ^ k / (Nat.factorial k : ℚ)

/-- The term `(a^n / n!) * (n / (n - a))` — the `numer` of `erlang_c_prob_wait`
(`wfm_math.py` line 54). -/
def erlangNumer (a : ℚ) (n : ℕ) : ℚ :=
  a ^ n / (Nat.factorial n : ℚ) * ((n : ℚ) / ((n : ℚ) - a))

/-- Model of `erlang_c_prob_wait(traffic_erlangs, agents)` from `wfm_math.py`:
probability a contact waits, `1.0` if unstable or invalid.  This gives
the exact-rational values; the float code additionally raises
`OverflowError` in the stable regime once a power or factorial leaves
the double range, which `erlang_c_prob_wait_float` below tracks. -/
def erlang_c_prob_wait (a : ℚ) (n : ℤ) : ℚ :=
  if n ≤ 0 ∨ a ≤ 0 then 1
  else if (n : ℚ) ≤ a then 1
  else
    let s := erlangSum a n.toNat
    let numer := erlangNumer a n.toNat
    if s + numer ≤ 0 then 1 else clamp01 (numer / (s + numer))

/-- Model of `erlang_c_asa_seconds(traffic_erlangs, agents, aht_seconds)` from
`wfm_math.py`; `⊤` models `float("inf")`. -/
def erlang_c_asa_seconds (a : ℚ) (n : ℤ) (aht : ℚ) : WithTop ℚ :=
  if aht ≤ 0 then ⊤
  else if n ≤ 0 then ⊤
  else if a ≤ 0 then ((0 : ℚ) : WithTop ℚ)
  else if (n : ℚ) ≤ a then ⊤
  else ((erlang_c_prob_wait a n * aht / max (1 / 1000000000) ((n : ℚ) - a) : ℚ) : WithTop ℚ)

/-- Model of `erlang_c_service_level(traffic_erlangs, agents, aht_seconds,
threshold_seconds)` from `wfm_math.py`, with `E` standing for `math.exp`.
Exact-rational values; the overflow path of the float code is tracked by
`erlang_c_service_level_float` below. -/
def erlang_c_service_level (E : ℚ → ℚ) (a : ℚ) (n : ℤ) (aht thr : ℚ) : ℚ :=
  if thr ≤ 0 then 0
  else if aht ≤ 0 then 0
  else if n ≤ 0 then 0
  else if a ≤ 0 then 1
  else if (n : ℚ) ≤ a then 0
  else clamp01 (1 - erlang_c_prob_wait a n * E (-((n : ℚ) - a) * (thr / aht)))

/-- The traffic formula `(contacts * aht_seconds) / max(1, interval_seconds)`, the
computation shared by `erlang_metrics` and the solvers. -/
def trafficOf (contacts : ℚ) (intervalSeconds : ℤ) (aht : ℚ) : ℚ :=
  contacts * aht / ((max 1 intervalSeconds : ℤ) : ℚ)

/-- Clamp lemmas. -/
theorem clamp01_le_one (x : ℚ) : clamp01 x ≤ 1 := by
  unfold clamp01
  exact max_le (by norm_num) (min_le_left _ _)

theorem clamp01_nonneg (x : ℚ) : 0 ≤ clamp01 x := le_max_left _ _

theorem clamp01_mono {x y : ℚ} (h : x ≤ y) : clamp01 x ≤ clamp01 y :=
  max_le_max le_rfl (min_le_min le_rfl h)

theorem erlang_c_prob_wait_le_one (a : ℚ) (n : ℤ) : erlang_c_prob_wait a n ≤ 1 := by
  unfold erlang_c_prob_wait
  dsimp only
  split_ifs <;> first | exact le_refl 1 | exact clamp01_le_one _

theorem erlang_c_prob_wait_nonneg (a : ℚ) (n : ℤ) : 0 ≤ erlang_c_prob_wait a n := by
  unfold erlang_c_prob_wait
  dsimp only
  split_ifs <;> first | exact clamp01_nonneg _ | norm_num

theorem erlang_c_service_level_nonneg (E : ℚ → ℚ) (a : ℚ) (n : ℤ) (aht thr : ℚ) :
    0 ≤ erlang_c_service_level E a n aht thr := by
  unfold erlang_c_service_level
  split_ifs <;> first | exact clamp01_nonneg _ | norm_num

/-- C4: in the saturated / over-capacity regime `a ≥ n` (with positive AHT
and threshold) the Erlang C triple degenerates to
`prob_wait = 1`, `asa = +∞`, `service_level = 0`. -/
theorem erlang_saturated (E : ℚ → ℚ) (a : ℚ) (n : ℤ) (aht thr : ℚ)
    (han : (n : ℚ) ≤ a) (hh : 0 < aht) (ht : 0 < thr) :
    erlang_c_prob_wait a n = 1 ∧
    erlang_c_asa_seconds a n aht = ⊤ ∧
    erlang_c_service_level E a n aht thr = 0 := by
  by_cases hn : n ≤ 0
  · refine ⟨?_, ?_, ?_⟩
    · unfold erlang_c_prob_wait
      rw [if_pos (Or.inl hn)]
    · unfold erlang_c_asa_seconds
      rw [if_neg (not_le.mpr hh), if_pos hn]
    · unfold erlang_c_service_level
      rw [if_neg (not_le.mpr ht), if_neg (not_le.mpr hh), if_pos hn]
  · have hn1 : (1 : ℤ) ≤ n := by omega
    have hnq : (1 : ℚ) ≤ (n : ℚ) := by exact_mod_cast hn1
    have hapos : 0 < a := lt_of_lt_of_le (by norm_num) (le_trans hnq han)
    refine ⟨?_, ?_, ?_⟩
    · unfold erlang_c_prob_wait
      rw [if_neg (by push_neg; exact ⟨by omega, hapos⟩), if_pos han]
    · unfold erlang_c_asa_seconds
      rw [if_neg (not_le.mpr hh), if_neg hn, if_neg (not_le.mpr hapos), if_pos han]
    · unfold erlang_c_service_level
      rw [if_neg (not_le.mpr ht), if_neg (not_le.mpr hh), if_neg hn,
        if_neg (not_le.mpr hapos), if_pos han]

/-- Witness for C4 at `a = 3`, `n = 2`, `aht = 10`, `thr = 5`. -/
theorem erlang_saturated_witness :
    erlang_c_prob_wait 3 2 = 1 ∧
    erlang_c_asa_seconds 3 2 10 = ⊤ ∧
    erlang_c_service_level (fun q => q) 3 2 10 5 = 0 :=
  erlang_saturated (fun q => q) 3 2 10 5 (by norm_num) (by norm_num) (by norm_num)

/-- C5 counterexample: the degenerate idle rule of the spec claims that for
`a ≤ 0` and EVERY agent count `n`, `asa = 0` and `service_level = 1`.
At `a = 0`, `n = 0`, `aht = 10`, `thr = 5` the code returns
`asa = +∞` and `service_level = 0` instead (the `n ≤ 0` branch wins). -/
theorem erlang_idle_claim_false :
    ¬(erlang_c_asa_seconds 0 0 10 = ((0 : ℚ) : WithTop ℚ) ∧
      erlang_c_service_level (fun q => q) 0 0 10 5 = 1) := by
  intro h
  have h1 : erlang_c_asa_seconds 0 0 10 = ⊤ := by decide
  rw [h1] at h
  exact (by decide : (⊤ : WithTop ℚ) ≠ ((0 : ℚ) : WithTop ℚ)) h.1

/-- C5 (amended): for `n ≤ 0` with `a > 0` the code gives `prob_wait = 1`,
`asa = +∞`, `service_level = 0`; for `a ≤ 0` the degenerate idle outputs
`asa = 0`, `service_level = 1` hold only when `n ≥ 1`, `aht > 0` and
`thr > 0` (the `n ≤ 0`, `aht ≤ 0` and `thr ≤ 0` branches take precedence),
while `prob_wait = 1` holds for every `n`. -/
theorem erlang_edge_policy (E : ℚ → ℚ) (a : ℚ) (n : ℤ) (aht thr : ℚ) :
    (n ≤ 0 → 0 < a →
      erlang_c_prob_wait a n = 1 ∧
      erlang_c_asa_seconds a n aht = ⊤ ∧
      erlang_c_service_level E a n aht thr = 0) ∧
    (a ≤ 0 →
      erlang_c_prob_wait a n = 1 ∧
      (1 ≤ n → 0 < aht → 0 < thr →
        erlang_c_asa_seconds a n aht = ((0 : ℚ) : WithTop ℚ) ∧
        erlang_c_service_level E a n aht thr = 1)) := by
  constructor
  · intro hn _
    refine ⟨?_, ?_, ?_⟩
    · unfold erlang_c_prob_wait
      rw [if_pos (Or.inl hn)]
    · unfold erlang_c_asa_seconds
      by_cases hh : aht ≤ 0
      · rw [if_pos hh]
      · rw [if_neg hh, if_pos hn]
    · unfold erlang_c_service_level
      by_cases ht : thr ≤ 0
      · rw [if_pos ht]
      · by_cases hh : aht ≤ 0
        · rw [if_neg ht, if_pos hh]
        · rw [if_neg ht, if_neg hh, if_pos hn]
  · intro ha
    constructor
    · unfold erlang_c_prob_wait
      rw [if_pos (Or.inr ha)]
    · intro hn hh ht
      have hn0 : ¬n ≤ 0 := by omega
      constructor
      · unfold erlang_c_asa_seconds
        rw [if_neg (not_le.mpr hh), if_neg hn0, if_pos ha]
      · unfold erlang_c_service_level
        rw [if_neg (not_le.mpr ht), if_neg (not_le.mpr hh), if_neg hn0, if_pos ha]

/-- Witness for the amended C5 statement at `(a, n) = (1, 0)` and `(0, 1)`. -/
theorem erlang_edge_policy_witness :
    (erlang_c_prob_wait 1 0 = 1 ∧
     erlang_c_asa_seconds 1 0 7 = ⊤ ∧
     erlang_c_service_level (fun q => q) 1 0 7 4 = 0) ∧
    (erlang_c_prob_wait 0 1 = 1 ∧
     erlang_c_asa_seconds 0 1 7 = ((0 : ℚ) : WithTop ℚ) ∧
     erlang_c_service_level (fun q => q) 0 1 7 4 = 1) := by
  refine ⟨(erlang_edge_policy (fun q => q) 1 0 7 4).1 (by norm_num) (by norm_num), ?_⟩
  have h := (erlang_edge_policy (fun q => q) 0 1 7 4).2 (by norm_num)
  have h2 := h.2 (by norm_num) (by norm_num) (by norm_num)
  exact ⟨h.1, h2.1, h2.2⟩

/-- The shrinkage clamp `r = max(0.0, min(0.95, shrinkage_rate))` used by
`apply_shrinkage`, `required_agents_realtime` and
`required_agents_throughput` in `wfm_math.py`. -/
def clampShrink (s : ℚ) : ℚ := max 0 (min (19 / 20) s)

/-- The conversion `int(math.ceil(required_available / max(1e-9, (1.0 - r))))` — the
scheduled-from-available conversion shared by both solver disciplines
(`wfm_math.py` lines 176-177 and 191-192). -/
def schedFromAvail (avail : ℤ) (s : ℚ) : ℤ :=
  Int.ceil ((avail : ℚ) / max (1 / 1000000000) (1 - clampShrink s))

/-- C8: the shrinkage conversion round-trips within rounding: with
`S = schedFromAvail A s` and `r = clampShrink s`,
`floor(S * (1 - r)) ≥ A` for every non-negative required-available count
`A` and every shrinkage rate `s`, so
`available = floor(scheduled * (1 - shrinkage))` (the relation used by
`generate_sample_data.py` line 198) inverts the scheduled derivation. -/
theorem shrinkage_round_trip (A : ℕ) (s : ℚ) :
    (A : ℤ) ≤ Int.floor ((schedFromAvail (A : ℤ) s : ℚ) * (1 - clampShrink s)) := by
  have hr0 : 0 ≤ clampShrink s := le_max_left _ _
  have hr1 : clampShrink s ≤ 19 / 20 := max_le (by norm_num) (min_le_left _ _)
  have hpos : (1 : ℚ) / 1000000000 ≤ 1 - clampShrink s := by linarith
  have hmax : max ((1 : ℚ) / 1000000000) (1 - clampShrink s) = 1 - clampShrink s :=
    max_eq_right hpos
  have hden : (0 : ℚ) < 1 - clampShrink s := by linarith
  rw [Int.le_floor]
  push_cast
  have hceil : (A : ℚ) / (1 - clampShrink s) ≤ ((schedFromAvail (A : ℤ) s : ℤ) : ℚ) := by
    unfold schedFromAvail
    rw [hmax]
    push_cast
    exact Int.le_ceil _
  calc (A : ℚ) = (A : ℚ) / (1 - clampShrink s) * (1 - clampShrink s) := by
        field_simp
    _ ≤ ((schedFromAvail (A : ℤ) s : ℤ) : ℚ) * (1 - clampShrink s) := by
        exact mul_le_mul_of_nonneg_right hceil (le_of_lt hden)

/-- The loop `for n in range(start, max_agents + 1)` of
`required_agents_for_sla`: `fuel` counts the remaining iterations
(`max_agents + 1 - n`); when the range is exhausted the function returns
`max_agents`. -/
def searchAux (sl : ℕ → ℚ) (target : ℚ) (maxAgents : ℕ) : ℕ → ℕ → ℕ
  | 0, _ => maxAgents
  | fuel + 1, n => if target ≤ sl n then n else searchAux sl target maxAgents fuel (n + 1)

/-- Model of `required_agents_for_sla(contacts, interval_seconds, aht_seconds,
sla_threshold_seconds, sla_target, max_agents)` from `wfm_math.py`:
linear search from `max(1, ceil(traffic))` up to `max_agents`, over the
exact-rational service level.  The float code can instead raise
`OverflowError` mid-scan, which `required_agents_for_sla_float` below
tracks. -/
def required_agents_for_sla (E : ℚ → ℚ) (contacts : ℚ) (intervalSeconds : ℤ)
    (aht thr target : ℚ) (maxAgents : ℕ) : ℕ :=
  let traffic := trafficOf contacts intervalSeconds aht
  let start := (max 1 (Int.ceil traffic)).toNat
  searchAux (fun n => erlang_c_service_level E traffic (n : ℤ) aht thr) target maxAgents
    (maxAgents + 1 - start) start

/-- Find-first semantics of the search loop. -/
theorem searchAux_spec (sl : ℕ → ℚ) (target : ℚ) (maxAgents : ℕ) :
    ∀ fuel n, fuel = maxAgents + 1 - n →
    (n ≤ searchAux sl target maxAgents fuel n ∧
     searchAux sl target maxAgents fuel n ≤ maxAgents ∧
     target ≤ sl (searchAux sl target maxAgents fuel n) ∧
     ∀ m, n ≤ m → m < searchAux sl target maxAgents fuel n → sl m < target) ∨
    (searchAux sl target maxAgents fuel n = maxAgents ∧
     ∀ m, n ≤ m → m ≤ maxAgents → sl m < target) := by
  intro fuel
  induction fuel with
  | zero =>
    intro n h
    right
    refine ⟨rfl, ?_⟩
    intro m h1 h2
    exact absurd h2 (by omega)
  | succ f ih =>
    intro n h
    have hn : n ≤ maxAgents := by omega
    simp only [searchAux]
    by_cases hsl : target ≤ sl n
    · rw [if_pos hsl]
      left
      exact ⟨le_rfl, hn, hsl, fun m h1 h2 => absurd (lt_of_le_of_lt h1 h2) (lt_irrefl n)⟩
    · rw [if_neg hsl]
      push_neg at hsl
      rcases ih (n + 1) (by omega) with ⟨h1, h2, h3, h4⟩ | ⟨h1, h2⟩
      · left
        refine ⟨by omega, h2, h3, ?_⟩
        intro m hm1 hm2
        by_cases hmn : n + 1 ≤ m
        · exact h4 m hmn hm2
        · have : m = n := by omega
          rwa [this]
      · right
        refine ⟨h1, ?_⟩
        intro m hm1 hm2
        by_cases hmn : n + 1 ≤ m
        · exact h2 m hmn hm2
        · have : m = n := by omega
          rwa [this]

/-- Find-first semantics of the search over the exact-rational service
level: for positive contacts, AHT and threshold the search returns the
smallest agent count `n` in `[ceil(traffic), max_agents]` whose service
level meets the target, and `max_agents` when no count in that range
does.  This is the idealized behaviour the docstring of
`required_agents_for_sla` promises; the float code deviates once an
evaluation overflows (see the overflow results at the end of the file). -/
theorem required_agents_for_sla_spec (E : ℚ → ℚ) (contacts : ℚ) (intervalSeconds : ℤ)
    (aht thr target : ℚ) (maxAgents : ℕ)
    (hc : 0 < contacts) (hh : 0 < aht) (ht : 0 < thr) :
    ((Int.ceil (trafficOf contacts intervalSeconds aht)).toNat ≤
        required_agents_for_sla E contacts intervalSeconds aht thr target maxAgents ∧
      required_agents_for_sla E contacts intervalSeconds aht thr target maxAgents ≤ maxAgents ∧
      target ≤ erlang_c_service_level E (trafficOf contacts intervalSeconds aht)
        ((required_agents_for_sla E contacts intervalSeconds aht thr target maxAgents : ℕ) : ℤ)
        aht thr ∧
      ∀ m : ℕ, (Int.ceil (trafficOf contacts intervalSeconds aht)).toNat ≤ m →
        m < required_agents_for_sla E contacts intervalSeconds aht thr target maxAgents →
        erlang_c_service_level E (trafficOf contacts intervalSeconds aht) (m : ℤ) aht thr
          < target) ∨
    (required_agents_for_sla E contacts intervalSeconds aht thr target maxAgents = maxAgents ∧
      ∀ m : ℕ, (Int.ceil (trafficOf contacts intervalSeconds aht)).toNat ≤ m → m ≤ maxAgents →
        erlang_c_service_level E (trafficOf contacts intervalSeconds aht) (m : ℤ) aht thr
          < target) := by
  have hden : (0 : ℚ) < ((max 1 intervalSeconds : ℤ) : ℚ) := by
    have : (1 : ℤ) ≤ max 1 intervalSeconds := le_max_left _ _
    exact_mod_cast lt_of_lt_of_le zero_lt_one (by exact_mod_cast this)
  have htpos : 0 < trafficOf contacts intervalSeconds aht :=
    div_pos (mul_pos hc hh) hden
  have hceil : (1 : ℤ) ≤ Int.ceil (trafficOf contacts intervalSeconds aht) := by
    have := Int.ceil_pos.mpr htpos
    omega
  have hmax : max 1 (Int.ceil (trafficOf contacts intervalSeconds aht)) =
      Int.ceil (trafficOf contacts intervalSeconds aht) := max_eq_right hceil
  unfold required_agents_for_sla
  dsimp only
  rw [hmax]
  exact searchAux_spec _ target maxAgents _ _ rfl

/-- The idealized search semantics instantiated at `contacts = 1`,
`interval = 3600 s`, `aht = 300 s`, `thr = 20 s`, `target = 1/2`,
ceiling `500`, with `E = const 1`. -/
theorem required_agents_for_sla_spec_witness :
    ((Int.ceil (trafficOf 1 3600 300)).toNat ≤
        required_agents_for_sla (fun _ => 1) 1 3600 300 20 (1 / 2) 500 ∧
      required_agents_for_sla (fun _ => 1) 1 3600 300 20 (1 / 2) 500 ≤ 500 ∧
      (1 / 2 : ℚ) ≤ erlang_c_service_level (fun _ => 1) (trafficOf 1 3600 300)
        ((required_agents_for_sla (fun _ => 1) 1 3600 300 20 (1 / 2) 500 : ℕ) : ℤ) 300 20 ∧
      ∀ m : ℕ, (Int.ceil (trafficOf 1 3600 300)).toNat ≤ m →
        m < required_agents_for_sla (fun _ => 1) 1 3600 300 20 (1 / 2) 500 →
        erlang_c_service_level (fun _ => 1) (trafficOf 1 3600 300) (m : ℤ) 300 20
          < 1 / 2) ∨
    (required_agents_for_sla (fun _ => 1) 1 3600 300 20 (1 / 2) 500 = 500 ∧
      ∀ m : ℕ, (Int.ceil (trafficOf 1 3600 300)).toNat ≤ m → m ≤ 500 →
        erlang_c_service_level (fun _ => 1) (trafficOf 1 3600 300) (m : ℤ) 300 20
          < 1 / 2) :=
  required_agents_for_sla_spec (fun _ => 1) 1 3600 300 20 (1 / 2) 500
    (by norm_num) (by norm_num) (by norm_num)

/-- Smallest magnitude at which a Python float operation overflows:
`2.0 ** 1024`.  `float(int)` raises `OverflowError` when the integer is at
least this large, and `a ** k` on floats raises `OverflowError` when the
exact power reaches it. -/
def pyFloatLimit : ℚ := 2 ^ 1024

/-- Python `float(m)` for an `int` `m` — raises `OverflowError` when the
value exceeds the double range.  Models `_factorial` in `wfm_math.py`
(`float(math.factorial(n))`). -/
def pyFloatOfNat (m : ℕ) : Except String ℚ :=
  if (m : ℚ) < pyFloatLimit then .ok (m : ℚ) else .error "OverflowError"

/-- Python `a ** k` on floats — raises `OverflowError` when the exact
result leaves the double range. -/
def pyPow (a : ℚ) (k : ℕ) : Except String ℚ :=
  if |a| ^ k < pyFloatLimit then .ok (a ^ k) else .error "OverflowError"

/-- One iteration `s += (a**k) / _factorial(k)` of the `erlang_c_prob_wait`
loop, with Python-float overflow tracked (`a ** k` evaluates first, then
`float(k!)`). -/
def erlangLoopBody (a acc : ℚ) (k : ℕ) : Except String ℚ :=
  match pyPow a k with
  | .error e => .error e
  | .ok p =>
    match pyFloatOfNat (Nat.factorial k) with
    | .error e => .error e
    | .ok f => .ok (acc + p / f)

/-- The loop `for k in range(0, n)` of `erlang_c_prob_wait`. -/
def erlangLoop (a acc : ℚ) : List ℕ → Except String ℚ
  | [] => .ok acc
  | k :: ks =>
    match erlangLoopBody a acc k with
    | .error e => .error e
    | .ok acc2 => erlangLoop a acc2 ks

/-- Overflow-tracking model of `erlang_c_prob_wait`: identical to
`erlang_c_prob_wait` except that `a ** k` and `float(k!)` raise
`OverflowError` past the double range, as the CPython operations do. -/
def erlang_c_prob_wait_float (a : ℚ) (n : ℤ) : Except String ℚ :=
  if n ≤ 0 ∨ a ≤ 0 then .ok 1
  else if (n : ℚ) ≤ a then .ok 1
  else
    match erlangLoop a 0 (List.range n.toNat) with
    | .error e => .error e
    | .ok s =>
      match pyPow a n.toNat with
      | .error e => .error e
      | .ok pn =>
        match pyFloatOfNat (Nat.factorial n.toNat) with
        | .error e => .error e
        | .ok fn =>
          let numer := pn / fn * ((n.toNat : ℚ) / ((n.toNat : ℚ) - a))
          if s + numer ≤ 0 then .ok 1 else .ok (clamp01 (numer / (s + numer)))

theorem pyPow_error {a : ℚ} {k : ℕ} {e : String}
    (h : pyPow a k = .error e) : e = "OverflowError" := by
  unfold pyPow at h
  split_ifs at h
  injection h with h2
  exact h2.symm

theorem pyFloatOfNat_error {m : ℕ} {e : String}
    (h : pyFloatOfNat m = .error e) : e = "OverflowError" := by
  unfold pyFloatOfNat at h
  split_ifs at h
  injection h with h2
  exact h2.symm

theorem erlangLoopBody_error {a acc : ℚ} {k : ℕ} {e : String}
    (h : erlangLoopBody a acc k = .error e) : e = "OverflowError" := by
  unfold erlangLoopBody at h
  rcases hp : pyPow a k with ep | p <;> rw [hp] at h
  · dsimp only at h
    injection h with h2
    exact h2 ▸ pyPow_error hp
  · dsimp only at h
    rcases hf : pyFloatOfNat (Nat.factorial k) with ef | f <;> rw [hf] at h
    · dsimp only at h
      injection h with h2
      exact h2 ▸ pyFloatOfNat_error hf
    · cases h

/-- If some list element makes the loop body fail for every accumulator,
the whole loop fails with `OverflowError`. -/
theorem erlangLoop_mem_error {a : ℚ} {l : List ℕ} (k : ℕ) (hk : k ∈ l)
    (hbody : ∀ acc, erlangLoopBody a acc k = .error "OverflowError") :
    ∀ acc, erlangLoop a acc l = .error "OverflowError" := by
  induction l with
  | nil => cases hk
  | cons x xs ih =>
    intro acc
    unfold erlangLoop
    rcases hx : erlangLoopBody a acc x with e | acc2
    · dsimp only
      rw [erlangLoopBody_error hx]
    · dsimp only
      rcases List.mem_cons.mp hk with hkx | hkxs
      · subst hkx
        rw [hbody acc] at hx
        cases hx
      · exact ih hkxs acc2

set_option maxRecDepth 4096 in
theorem factorial171_big : 2 ^ 1024 ≤ Nat.factorial 171 := by decide

set_option maxRecDepth 4096 in
theorem factorial170_small : Nat.factorial 170 < 2 ^ 1024 := by decide

theorem one_lt_pyFloatLimit : (1 : ℚ) < pyFloatLimit := by
  unfold pyFloatLimit
  exact lt_of_lt_of_le one_lt_two (le_self_pow₀ (by norm_num) (by norm_num))

/-- Converting `171!` to a Python float overflows the double range. -/
theorem pyFloatOfNat_factorial171_err :
    pyFloatOfNat (Nat.factorial 171) = .error "OverflowError" := by
  unfold pyFloatOfNat pyFloatLimit
  rw [if_neg]
  rw [not_lt]
  have h2 : ((2 : ℕ) : ℚ) ^ 1024 ≤ ((Nat.factorial 171 : ℕ) : ℚ) := by
    rw [← Nat.cast_pow]
    exact_mod_cast factorial171_big
  exact_mod_cast h2

/-- Powers of a base of magnitude at most one never overflow. -/
theorem pyPow_ok_of_abs_le_one {a : ℚ} (ha1 : |a| ≤ 1) (k : ℕ) :
    pyPow a k = .ok (a ^ k) := by
  unfold pyPow
  rw [if_pos (lt_of_le_of_lt (pow_le_one₀ (abs_nonneg a) ha1) one_lt_pyFloatLimit)]

/-- Factorials up to `170!` fit in a Python float. -/
theorem pyFloatOfNat_factorial_ok {k : ℕ} (hk : k ≤ 170) :
    pyFloatOfNat (Nat.factorial k) = .ok ((Nat.factorial k : ℕ) : ℚ) := by
  have h2 : Nat.factorial k < 2 ^ 1024 :=
    lt_of_le_of_lt (Nat.factorial_le hk) factorial170_small
  have h3 : ((Nat.factorial k : ℕ) : ℚ) < pyFloatLimit := by
    unfold pyFloatLimit
    rw [show ((2 : ℚ) ^ 1024) = ((2 ^ 1024 : ℕ) : ℚ) by push_cast; ring]
    exact_mod_cast h2
  unfold pyFloatOfNat
  rw [if_pos h3]

/-- C3 fails on the code: at `traffic = 1`, `agents = 172` (well inside the
claimed range `1 ≤ n ≤ 500`, `0 < a < n`) the loop calls
`float(math.factorial(171))`, which exceeds the double range, so
`erlang_c_prob_wait` raises `OverflowError` instead of returning a
probability: the naive factorial powers do overflow for agent counts in
the hundreds. -/
theorem erlang_c_prob_wait_float_overflow :
    erlang_c_prob_wait_float 1 172 = .error "OverflowError" := by
  unfold erlang_c_prob_wait_float
  rw [if_neg (by norm_num), if_neg (by norm_num)]
  have hpow : pyPow (1 : ℚ) 171 = .ok 1 := by
    rw [pyPow_ok_of_abs_le_one (le_of_eq abs_one) 171, one_pow]
  have hbody : ∀ acc, erlangLoopBody (1 : ℚ) acc 171 = .error "OverflowError" := by
    intro acc
    unfold erlangLoopBody
    rw [hpow, pyFloatOfNat_factorial171_err]
  have hloop := erlangLoop_mem_error (a := 1) 171
    (by decide : (171 : ℕ) ∈ List.range (Int.toNat 172)) hbody 0
  rw [hloop]

/-- Structure `ErlangResult` from `wfm_math.py`. -/
structure ErlangResult where
  traffic_erlangs : ℚ
  agents : ℤ
  prob_wait : ℚ
  asa_seconds : WithTop ℚ
  service_level : ℚ
deriving DecidableEq

/-- Structure `StaffingResult` from `wfm_math.py`. -/
structure StaffingResult where
  available_agents : ℤ
  scheduled_agents : ℤ
deriving DecidableEq

/-- Model of `erlang_metrics(contacts, interval_seconds, aht_seconds, agents,
sla_threshold_seconds)` from `wfm_math.py`. -/
def erlang_metrics (E : ℚ → ℚ) (contacts : ℚ) (intervalSeconds : ℤ) (aht : ℚ)
    (agents : ℤ) (thr : ℚ) : ErlangResult :=
  let traffic := trafficOf contacts intervalSeconds aht
  ⟨traffic, agents, erlang_c_prob_wait traffic agents,
    erlang_c_asa_seconds traffic agents aht,
    erlang_c_service_level E traffic agents aht thr⟩

/-- Alias `erlang_c_summary` — backwards-compatible name of `erlang_metrics`. -/
def erlang_c_summary (E : ℚ → ℚ) (contacts : ℚ) (intervalSeconds : ℤ) (aht : ℚ)
    (agents : ℤ) (thr : ℚ) : ErlangResult :=
  erlang_metrics E contacts intervalSeconds aht agents thr

/-- Model of `required_agents_realtime` from `wfm_math.py` (`max_agents` stays at
its default `500`). -/
def required_agents_realtime (E : ℚ → ℚ) (contacts : ℚ) (intervalSeconds : ℤ)
    (aht thr target shrinkage_rate : ℚ) : StaffingResult :=
  let requiredAvailable : ℤ :=
    (required_agents_for_sla E contacts intervalSeconds aht thr target 500 : ℕ)
  ⟨requiredAvailable, schedFromAvail requiredAvailable shrinkage_rate⟩

/-- Model of `required_agents_throughput` from `wfm_math.py`. -/
def required_agents_throughput (contacts : ℚ) (intervalSeconds : ℤ)
    (aht shrinkage_rate productivity : ℚ) : StaffingResult :=
  let prod := max (1 / 10) productivity
  let requiredAvailable : ℤ := Int.ceil (trafficOf contacts intervalSeconds aht / prod)
  ⟨requiredAvailable, schedFromAvail requiredAvailable shrinkage_rate⟩

/-- Structure `Scenario` from `forecast_and_simulate.py`. -/
structure Scenario where
  scenario_id : String
  name : String
  demand_multiplier : ℚ
  shrinkage_delta : ℚ
  wage_multiplier : ℚ
  staffing_buffer : ℚ
deriving DecidableEq

/-- The list `DEFAULT_SCENARIOS` from `forecast_and_simulate.py`. -/
def DEFAULT_SCENARIOS : List Scenario :=
  [⟨"base", "Baseline", 1, 0, 1, 8 / 100⟩,
   ⟨"hi_demand", "High demand (+10%)", 11 / 10, 0, 1, 8 / 100⟩,
   ⟨"lo_demand", "Low demand (-10%)", 9 / 10, 0, 1, 8 / 100⟩,
   ⟨"hi_shrink", "Shrinkage up (+5pp)", 1, 5 / 100, 1, 8 / 100⟩,
   ⟨"lo_shrink", "Shrinkage down (-5pp)", 1, -(5 / 100), 1, 8 / 100⟩,
   ⟨"wage_up", "Wage up (+10%)", 1, 0, 11 / 10, 8 / 100⟩,
   ⟨"aggressive", "Aggressive service (buffer 20%)", 1, 0, 1, 20 / 100⟩]

/-- The `base` scenario: multiplier `1.0`, shrinkage delta `0.0`. -/
def baseScenario : Scenario := ⟨"base", "Baseline", 1, 0, 1, 8 / 100⟩

/-- A merged forecast × staffing-reference row as seen by
`_simulate_scenario` (`cost_per_hour` and `shrinkage_rate` may be missing
after the left merge; `fillna` supplies `22.0` and `0.30`). -/
structure ForecastStaffRow where
  forecast_offered : ℚ
  cost_per_hour : Option ℚ
  shrinkage_rate : Option ℚ
  sla_threshold_seconds : ℚ
  aht_seconds : ℚ
  is_realtime : Bool
deriving DecidableEq

/-- Parameter names of `required_agents_realtime` in `wfm_math.py`. -/
def requiredAgentsRealtimeParams : List String :=
  ["contacts", "interval_seconds", "aht_seconds", "sla_threshold_seconds",
   "sla_target", "shrinkage_rate"]

/-- Parameters of `required_agents_realtime` that carry default values. -/
def requiredAgentsRealtimeDefaults : List String := ["shrinkage_rate"]

/-- Parameter names of `erlang_c_summary` in `wfm_math.py`. -/
def erlangSummaryParams : List String :=
  ["contacts", "interval_seconds", "aht_seconds", "agents", "sla_threshold_seconds"]

/-- Parameters of `erlang_c_summary` that carry default values. -/
def erlangSummaryDefaults : List String := []

/-- Parameter names of `required_agents_throughput` in `wfm_math.py`. -/
def requiredAgentsThroughputParams : List String :=
  ["contacts", "interval_seconds", "aht_seconds", "shrinkage_rate", "productivity"]

/-- Parameters of `required_agents_throughput` that carry default values. -/
def requiredAgentsThroughputDefaults : List String := ["shrinkage_rate", "productivity"]

/-- Keywords used at the `required_agents_realtime(...)` call site in
`_simulate_scenario` (`forecast_and_simulate.py` lines 206-214). -/
def simulatorRealtimeCallKeywords : List String :=
  ["contacts", "aht_seconds", "interval_seconds", "sla_threshold_seconds",
   "sla_target", "shrinkage", "occupancy_cap"]

/-- Keywords used at the `erlang_c_summary(...)` call sites in
`_simulate_scenario` (lines 215-221 and 261-267). -/
def simulatorSummaryCallKeywords : List String :=
  ["contacts", "aht_seconds", "interval_seconds", "agents_available",
   "sla_threshold_seconds"]

/-- Keywords used at the `required_agents_throughput(...)` call site in
`_simulate_scenario` (lines 226-232). -/
def simulatorThroughputCallKeywords : List String :=
  ["contacts", "aht_seconds", "interval_seconds", "shrinkage", "buffer"]

/-- Python keyword-call check: a call binds successfully iff every keyword
names a parameter and every parameter without a default is supplied;
otherwise the call raises `TypeError` before the callee body runs. -/
def pyKwArgsOk (params defaults kwargs : List String) : Bool :=
  kwargs.all (fun k => params.contains k) &&
  params.all (fun p => defaults.contains p || kwargs.contains p)

/-- One output row appended by `_simulate_scenario` for one forecast row
(`required_agents_scheduled`, achieved SLA, achieved ASA; `none` models
the `float("nan")` ASA of throughput channels). -/
structure ScenarioOutcomeRecord where
  required_agents_scheduled : ℤ
  achieved_service_level : ℚ
  achieved_asa_seconds : Option (WithTop ℚ)
deriving DecidableEq

/-- The per-row body of the first loop of `_simulate_scenario`
(`forecast_and_simulate.py` lines 198-238).  Each staffing call is guarded
by the Python keyword check; the continuation after a guard receives the
values the call would bind if its keywords matched the signature, but is
unreachable because every guard fails. -/
def simulate_scenario_row (E : ℚ → ℚ) (intervalMinutes : ℤ) (sc : Scenario)
    (row : ForecastStaffRow) : Except String ScenarioOutcomeRecord :=
  let intervalSeconds := intervalMinutes * 60
  let offered := max 0 (row.forecast_offered * sc.demand_multiplier)
  let aht := max 1 row.aht_seconds
  let thr := max 1 row.sla_threshold_seconds
  let shrinkage :=
    max 0 (max 0 (min (7 / 10) (row.shrinkage_rate.getD (3 / 10) + sc.shrinkage_delta)))
  if row.is_realtime then
    if pyKwArgsOk requiredAgentsRealtimeParams requiredAgentsRealtimeDefaults
        simulatorRealtimeCallKeywords then
      let req := required_agents_realtime E offered intervalSeconds aht thr (4 / 5) shrinkage
      if pyKwArgsOk erlangSummaryParams erlangSummaryDefaults
          simulatorSummaryCallKeywords then
        let er := erlang_c_summary E offered intervalSeconds aht req.available_agents thr
        .ok ⟨req.scheduled_agents, er.service_level, some er.asa_seconds⟩
      else .error "TypeError"
    else .error "TypeError"
  else
    if pyKwArgsOk requiredAgentsThroughputParams requiredAgentsThroughputDefaults
        simulatorThroughputCallKeywords then
      let req := required_agents_throughput offered intervalSeconds aht shrinkage 1
      let capacity := (req.available_agents : ℚ) * (intervalSeconds : ℚ) / aht
      let sla := if offered ≤ 0 then 1 else min 1 (capacity / offered)
      .ok ⟨req.scheduled_agents, sla, none⟩
    else .error "TypeError"

/-- The function `_simulate_scenario` restricted to its outcome-producing loop: the rows
are processed in order and the first exception aborts the whole scenario
with no outcome records. -/
def simulate_scenario_rows (E : ℚ → ℚ) (intervalMinutes : ℤ) (sc : Scenario) :
    List ForecastStaffRow → Except String (List ScenarioOutcomeRecord)
  | [] => .ok []
  | r :: rs =>
    match simulate_scenario_row E intervalMinutes sc r with
    | .error e => .error e
    | .ok o =>
      match simulate_scenario_rows E intervalMinutes sc rs with
      | .error e => .error e
      | .ok os => .ok (o :: os)

theorem realtimeCallInvalid :
    pyKwArgsOk requiredAgentsRealtimeParams requiredAgentsRealtimeDefaults
      simulatorRealtimeCallKeywords = false := by decide

theorem summaryCallInvalid :
    pyKwArgsOk erlangSummaryParams erlangSummaryDefaults
      simulatorSummaryCallKeywords = false := by decide

theorem throughputCallInvalid :
    pyKwArgsOk requiredAgentsThroughputParams requiredAgentsThroughputDefaults
      simulatorThroughputCallKeywords = false := by decide

theorem simulate_scenario_row_raises (E : ℚ → ℚ) (im : ℤ) (sc : Scenario)
    (row : ForecastStaffRow) :
    simulate_scenario_row E im sc row = .error "TypeError" := by
  unfold simulate_scenario_row
  cases hrt : row.is_realtime
  · simp [hrt, throughputCallInvalid]
  · simp [hrt, realtimeCallInvalid]

/-- C1: every non-empty forecast input makes `_simulate_scenario` raise
`TypeError` before producing any outcome record: the calls pass keywords
(`shrinkage=`, `occupancy_cap=`, `agents_available=`, `buffer=`) that the
callee signatures do not accept. -/
theorem scenario_simulator_always_raises (E : ℚ → ℚ) (im : ℤ) (sc : Scenario)
    (row : ForecastStaffRow) (rows : List ForecastStaffRow) :
    simulate_scenario_rows E im sc (row :: rows) = .error "TypeError" := by
  unfold simulate_scenario_rows
  rw [simulate_scenario_row_raises]

/-- A concrete realtime forecast row: offered `10`, reference metadata
`cost 22 $/h`, `shrinkage 0.30`, `SLA threshold 20 s`, `AHT 300 s`. -/
def baseRow : ForecastStaffRow := ⟨10, some 22, some (3 / 10), 20, 300, true⟩

/-- C2 is broken by the code: the base scenario (`demand_multiplier 1.0`,
`shrinkage_delta 0.0`, first entry of `DEFAULT_SCENARIOS`) raises
`TypeError` on a one-row forecast and yields no required-agent values at
all, while the Staffing Solver called directly on the same unmodified
record returns `available = 3`, `scheduled = 5`. -/
theorem base_scenario_diverges_from_solver :
    DEFAULT_SCENARIOS.head? = some baseScenario ∧
    simulate_scenario_rows (fun _ => 1) 60 baseScenario [baseRow] = .error "TypeError" ∧
    required_agents_realtime (fun _ => 1) 10 3600 300 20 (4 / 5) (3 / 10) =
      ⟨3, 5⟩ := by
  refine ⟨rfl, ?_, ?_⟩
  · unfold simulate_scenario_rows
    rw [simulate_scenario_row_raises]
  · with_unfolding_all decide

/-- A `min` fold never exceeds its initial value. -/
theorem foldl_min_le_init (l : List ℕ) (i : ℕ) : l.foldl min i ≤ i := by
  induction l generalizing i with
  | nil => exact le_rfl
  | cons x xs ih => exact le_trans (ih (min i x)) (min_le_left i x)

/-- A `max` fold is bounded below by its initial value. -/
theorem le_foldl_max (l : List ℕ) (i : ℕ) : i ≤ l.foldl max i := by
  induction l generalizing i with
  | nil => exact le_rfl
  | cons x xs ih => exact le_trans (le_max_left i x) (ih (max i x))

/-- Every element bounds a `max` fold from below. -/
theorem elem_le_foldl_max (l : List ℕ) (x : ℕ) (hx : x ∈ l) :
    ∀ i, x ≤ l.foldl max i := by
  induction l with
  | nil => cases hx
  | cons y ys ih =>
    intro i
    rcases List.mem_cons.mp hx with hxy | hxys
    · subst hxy
      exact le_trans (le_max_right i x) (le_foldl_max ys (max i x))
    · exact ih hxys (max i y)

/-- The resampling `df.resample("D", on="interval_start")["offered_contacts"].sum()` on a
series of `(day number, offered)` records: one daily total for every
calendar day between the first and the last observed day, zero-filled for
days with no records (`_fit_profile_and_trend`, `forecast_and_simulate.py`
line 94). -/
def resampleDaily (recs : List (ℕ × ℚ)) : List ℚ :=
  if recs = [] then []
  else
    let days := recs.map Prod.fst
    let lo := days.foldl min (days.headD 0)
    let hi := days.foldl max 0
    (List.range (hi + 1 - lo)).map
      (fun i => ((recs.filter (fun r => r.1 = lo + i)).map Prod.snd).sum)

/-- The daily-trend fit of `_fit_profile_and_trend`
(`forecast_and_simulate.py` lines 97-108): a least-squares line
`(slope, intercept)` when at least 7 daily totals exist, otherwise a flat
trend whose intercept is the mean daily total (`0` with no data). -/
def fitTrend (daily : List ℚ) : ℚ × ℚ :=
  if 7 ≤ daily.length then
    let x : List ℚ := (List.range daily.length).map (fun i => (i : ℚ))
    let xMean := x.sum / (daily.length : ℚ)
    let yMean := daily.sum / (daily.length : ℚ)
    let den := (x.map (fun xi => (xi - xMean) ^ 2)).sum
    let slope :=
      if den = 0 then 0
      else ((x.zip daily).map (fun p => (p.1 - xMean) * (p.2 - yMean))).sum / den
    (slope, yMean - slope * xMean)
  else
    (0, if daily.length ≠ 0 then daily.sum / (daily.length : ℚ) else 0)

/-- The `(trend_slope, trend_intercept)` part of `_fit_profile_and_trend`:
daily totals from the series, then the trend fit.  (The median seasonal
profile and `base_level` of the returned dict do not interact with the
trend values.) -/
def fit_profile_and_trend (recs : List (ℕ × ℚ)) : ℚ × ℚ :=
  fitTrend (resampleDaily recs)

theorem resampleDaily_length_pos (recs : List (ℕ × ℚ)) (h : recs ≠ []) :
    0 < (resampleDaily recs).length := by
  unfold resampleDaily
  rw [if_neg h]
  dsimp only
  rw [List.length_map, List.length_range]
  have hne : recs.map Prod.fst ≠ [] := by
    intro hc
    exact h (List.map_eq_nil.mp hc)
  have hmem : (recs.map Prod.fst).headD 0 ∈ recs.map Prod.fst := by
    cases hl : recs.map Prod.fst with
    | nil => exact absurd hl hne
    | cons d ds => simp
  have h1 := foldl_min_le_init (recs.map Prod.fst) ((recs.map Prod.fst).headD 0)
  have h2 := elem_le_foldl_max (recs.map Prod.fst) _ hmem 0
  omega

/-- C9: with fewer than 7 daily totals the fitted trend is flat: slope `0`
and intercept the mean daily offered total (and `0` for an empty series). -/
theorem flat_trend_under_seven_days (recs : List (ℕ × ℚ))
    (hlen : (resampleDaily recs).length < 7) :
    fit_profile_and_trend recs =
      (0, if recs = [] then 0
          else (resampleDaily recs).sum / ((resampleDaily recs).length : ℚ)) := by
  unfold fit_profile_and_trend fitTrend
  rw [if_neg (by omega)]
  by_cases h : recs = []
  · subst h
    simp [resampleDaily]
  · have hpos := resampleDaily_length_pos recs h
    rw [if_pos (by omega), if_neg h]

/-- Witness for C9: two observed days `(0, 5)` and `(1, 7)`. -/
theorem flat_trend_under_seven_days_witness :
    (resampleDaily [(0, 5), (1, 7)]).length < 7 ∧
    fit_profile_and_trend [(0, 5), (1, 7)] =
      (0, if ([(0, 5), (1, 7)] : List (ℕ × ℚ)) = [] then 0
          else (resampleDaily [(0, 5), (1, 7)]).sum /
            ((resampleDaily [(0, 5), (1, 7)]).length : ℚ)) :=
  ⟨by with_unfolding_all decide,
   flat_trend_under_seven_days [(0, 5), (1, 7)] (by with_unfolding_all decide)⟩

/-- One entry of the projection index handed to `_forecast_series`: an
absolute day number and the time bucket within the day (day-of-week is
`day % 7`). -/
structure SlotKey where
  day : ℕ
  bucket : ℕ
deriving DecidableEq

/-- The fitted model as consumed by `_forecast_series`: the seasonal
profile keyed by `(dow, bucket)` (unique keys from the groupby) and the
daily trend. -/
structure ForecastModel where
  profile : List ((ℕ × ℕ) × ℚ)
  trend_slope : ℚ
  trend_intercept : ℚ
deriving DecidableEq

/-- The lookup `prof_map.get(key, 0.0)` (`_forecast_series`, line 143). -/
def profGet (profile : List ((ℕ × ℕ) × ℚ)) (key : ℕ × ℕ) : ℚ :=
  ((profile.find? (fun p => p.1 == key)).map Prod.snd).getD 0

/-- The lookup `prof_totals.get(int(d), 1.0)` (`_forecast_series`, lines 140-141):
the profile sum over one day-of-week, `1.0` when the dow is absent. -/
def profTotalForDow (profile : List ((ℕ × ℕ) × ℚ)) (dow : ℕ) : ℚ :=
  let entries := profile.filter (fun p => p.1.1 == dow)
  if entries = [] then 1 else (entries.map Prod.snd).sum

/-- The rank `day_ord = rank(method="dense") - 1` over the days of the projection
index (`_forecast_series`, line 134): the number of distinct smaller day
values present in the index. -/
def dayOrd (idx : List SlotKey) (d : ℕ) : ℕ :=
  (((idx.map SlotKey.day).dedup).filter (fun x => decide (x < d))).length

/-- One forecast value of `_forecast_series` (lines 132-146):
`profile[key] * (max(0, intercept + slope * day_ord) / max(1e-6,
profile_total[dow]))`, `0.0` base for a key absent from the profile. -/
def forecastSlot (m : ForecastModel) (idx : List SlotKey) (e : SlotKey) : ℚ :=
  let dow := e.day % 7
  let base := profGet m.profile (dow, e.bucket)
  let dailyTotal := max 0 (m.trend_intercept + m.trend_slope * (dayOrd idx e.day : ℚ))
  let expectedTotal := max (1 / 1000000) (profTotalForDow m.profile dow)
  base * (dailyTotal / expectedTotal)

/-- C10: the trend is evaluated at the dense rank of the day inside the
projection index itself, so every slot on the first projected day uses the
trend factor `max(0, intercept)` (the trend restarts at day 0 instead of
extrapolating the training window), and a `(dow, bucket)` key absent from
the profile forecasts exactly `0`. -/
theorem forecast_first_day_and_missing_key (m : ForecastModel)
    (idx : List SlotKey) (e : SlotKey) :
    (e ∈ idx → (∀ e2 ∈ idx, e.day ≤ e2.day) →
      forecastSlot m idx e =
        profGet m.profile (e.day % 7, e.bucket) *
          (max 0 m.trend_intercept /
            max (1 / 1000000) (profTotalForDow m.profile (e.day % 7)))) ∧
    ((∀ p ∈ m.profile, p.1 ≠ (e.day % 7, e.bucket)) →
      forecastSlot m idx e = 0) := by
  constructor
  · intro _ hmin
    have hord : dayOrd idx e.day = 0 := by
      unfold dayOrd
      rw [List.length_eq_zero]
      rw [List.filter_eq_nil]
      intro x hx
      have hx2 : x ∈ idx.map SlotKey.day := List.dedup_subset _ hx
      rcases List.mem_map.mp hx2 with ⟨e2, he2, rfl⟩
      simpa using not_lt.mpr (hmin e2 he2)
    unfold forecastSlot
    rw [hord]
    push_cast
    rw [mul_zero, add_zero]
  · intro habsent
    have hfind : m.profile.find? (fun p => p.1 == (e.day % 7, e.bucket)) = none := by
      rw [List.find?_eq_none]
      intro p hp
      simpa using habsent p hp
    unfold forecastSlot profGet
    dsimp only
    rw [hfind]
    simp

/-- Witness for C10: profile `{(dow 0, bucket 0) ↦ 10}`, slope `2`,
intercept `4`; index days `0` and `1`. -/
theorem forecast_first_day_and_missing_key_witness :
    forecastSlot ⟨[((0, 0), 10)], 2, 4⟩ [⟨0, 0⟩, ⟨1, 0⟩] ⟨0, 0⟩ =
      profGet [((0, 0), 10)] (0 % 7, 0) *
        (max 0 4 / max (1 / 1000000) (profTotalForDow [((0, 0), 10)] (0 % 7))) ∧
    forecastSlot ⟨[((0, 0), 10)], 2, 4⟩ [⟨0, 0⟩, ⟨1, 0⟩] ⟨0, 1⟩ = 0 :=
  ⟨(forecast_first_day_and_missing_key ⟨[((0, 0), 10)], 2, 4⟩ [⟨0, 0⟩, ⟨1, 0⟩] ⟨0, 0⟩).1
      (by decide) (by decide),
   (forecast_first_day_and_missing_key ⟨[((0, 0), 10)], 2, 4⟩ [⟨0, 0⟩, ⟨1, 0⟩] ⟨0, 1⟩).2
      (by decide)⟩

theorem erlangSum_succ (a : ℚ) (n : ℕ) :
    erlangSum a (n + 1) = erlangSum a n + a ^ n / (Nat.factorial n : ℚ) :=
  Finset.sum_range_succ _ n

theorem erlangTerm_pos {a : ℚ} (ha : 0 < a) (n : ℕ) :
    0 < a ^ n / (Nat.factorial n : ℚ) :=
  div_pos (pow_pos ha n) (by exact_mod_cast Nat.factorial_pos n)

theorem erlangSum_pos {a : ℚ} (ha : 0 < a) {n : ℕ} (hn : 0 < n) :
    0 < erlangSum a n :=
  Finset.sum_pos (fun k _ => erlangTerm_pos ha k)
    (Finset.nonempty_range_iff.mpr (by omega))

theorem erlangNumer_pos {a : ℚ} {n : ℕ} (ha : 0 < a) (han : a < (n : ℚ)) :
    0 < erlangNumer a n := by
  have hn : (0 : ℚ) < (n : ℚ) := lt_trans ha han
  exact mul_pos (erlangTerm_pos ha n) (div_pos hn (by linarith))

/-- Key inequality behind the Erlang C monotonicity: adding an agent can
only shrink the waiting probability, expressed by cross-multiplied
numerators. -/
theorem erlang_key {a : ℚ} {n : ℕ} (ha : 0 < a) (han : a < (n : ℚ)) :
    erlangNumer a (n + 1) * erlangSum a n ≤ erlangNumer a n * erlangSum a (n + 1) := by
  have hnq : (0 : ℚ) < (n : ℚ) := lt_trans ha han
  have hd1 : (0 : ℚ) < (n : ℚ) - a := by linarith
  have hd2 : (0 : ℚ) < (n : ℚ) + 1 - a := by linarith
  have hnp1 : (0 : ℚ) < (n : ℚ) + 1 := by linarith
  have hfacn : ((Nat.factorial n : ℕ) : ℚ) ≠ 0 := by
    exact_mod_cast Nat.factorial_ne_zero n
  have htpos : 0 < a ^ n / (Nat.factorial n : ℚ) := erlangTerm_pos ha n
  have hnpos : 0 < n := by exact_mod_cast hnq
  have hs1 : 0 < erlangSum a n := erlangSum_pos ha hnpos
  have hN2 : erlangNumer a (n + 1) =
      a ^ n / (Nat.factorial n : ℚ) * a / ((n : ℚ) + 1 - a) := by
    unfold erlangNumer
    have hfs : ((Nat.factorial (n + 1) : ℕ) : ℚ) =
        ((n : ℚ) + 1) * ((Nat.factorial n : ℕ) : ℚ) := by
      rw [Nat.factorial_succ]
      push_cast
      ring
    rw [pow_succ, hfs]
    push_cast
    field_simp
    ring
  have hN1 : erlangNumer a n =
      a ^ n / (Nat.factorial n : ℚ) * ((n : ℚ) / ((n : ℚ) - a)) := rfl
  set t := a ^ n / (Nat.factorial n : ℚ) with hton
  set s1 := erlangSum a n with hs1def
  have hsum2 : erlangSum a (n + 1) = s1 + t := erlangSum_succ a n
  have hfac : a * ((n : ℚ) - a) ≤ (n : ℚ) * ((n : ℚ) + 1 - a) := by
    nlinarith [sq_nonneg ((n : ℚ) - a)]
  have h1 : (a * ((n : ℚ) - a)) * s1 ≤ ((n : ℚ) * ((n : ℚ) + 1 - a)) * (s1 + t) :=
    mul_le_mul hfac (by linarith) (le_of_lt hs1)
      (mul_nonneg (le_of_lt hnq) (le_of_lt hd2))
  have h2 := mul_le_mul_of_nonneg_left h1 (le_of_lt htpos)
  rw [hN1, hN2, hsum2]
  calc t * a / ((n : ℚ) + 1 - a) * s1
      = (t * ((a * ((n : ℚ) - a)) * s1)) / (((n : ℚ) + 1 - a) * ((n : ℚ) - a)) := by
        field_simp
        ring
    _ ≤ (t * (((n : ℚ) * ((n : ℚ) + 1 - a)) * (s1 + t))) /
          (((n : ℚ) + 1 - a) * ((n : ℚ) - a)) := by
        have hden : (0 : ℚ) < ((n : ℚ) + 1 - a) * ((n : ℚ) - a) := mul_pos hd2 hd1
        exact (div_le_div_iff_of_pos_right hden).mpr h2
    _ = t * ((n : ℚ) / ((n : ℚ) - a)) * (s1 + t) := by
        field_simp
        ring

/-- The raw waiting probability `numer / (s + numer)` shrinks when one
agent is added. -/
theorem erlangRaw_anti {a : ℚ} {n : ℕ} (ha : 0 < a) (han : a < (n : ℚ)) :
    erlangNumer a (n + 1) / (erlangSum a (n + 1) + erlangNumer a (n + 1)) ≤
      erlangNumer a n / (erlangSum a n + erlangNumer a n) := by
  have hnpos : 0 < n := by exact_mod_cast lt_trans ha han
  have han2 : a < ((n + 1 : ℕ) : ℚ) := by push_cast; linarith
  have hN1 : 0 < erlangNumer a n := erlangNumer_pos ha han
  have hN2 : 0 < erlangNumer a (n + 1) := erlangNumer_pos ha han2
  have hs1 : 0 < erlangSum a n := erlangSum_pos ha hnpos
  have hs2 : 0 < erlangSum a (n + 1) := erlangSum_pos ha (by omega)
  rw [div_le_div_iff (by linarith) (by linarith)]
  have key := erlang_key ha han
  nlinarith [key]

/-- Cast bookkeeping: for `1 ≤ n`, `((n.toNat : ℕ) : ℚ) = (n : ℚ)`. -/
theorem int_toNat_cast_q {n : ℤ} (hn : 0 ≤ n) : ((n.toNat : ℕ) : ℚ) = (n : ℚ) := by
  have h := Int.toNat_of_nonneg hn
  exact_mod_cast congrArg (fun z : ℤ => (z : ℚ)) h

/-- In the stable regime `0 < a < n` the waiting probability is the
clamped raw ratio. -/
theorem erlang_c_prob_wait_eq_clamp {a : ℚ} {n : ℤ} (ha : 0 < a)
    (han : a < (n : ℚ)) :
    erlang_c_prob_wait a n =
      clamp01 (erlangNumer a n.toNat /
        (erlangSum a n.toNat + erlangNumer a n.toNat)) := by
  have hn1 : (1 : ℤ) ≤ n := by
    by_contra hc
    push_neg at hc
    have : (n : ℚ) ≤ 0 := by exact_mod_cast (by omega : n ≤ 0)
    linarith
  have hcast : ((n.toNat : ℕ) : ℚ) = (n : ℚ) := int_toNat_cast_q (by omega)
  have hantn : a < ((n.toNat : ℕ) : ℚ) := by rw [hcast]; exact han
  have hpos : 0 < erlangSum a n.toNat + erlangNumer a n.toNat :=
    add_pos (erlangSum_pos ha (by omega)) (erlangNumer_pos ha hantn)
  unfold erlang_c_prob_wait
  rw [if_neg (by push_neg; exact ⟨by omega, ha⟩), if_neg (not_le.mpr han)]
  dsimp only
  rw [if_neg (not_le.mpr hpos)]

/-- Erlang C waiting probability is non-increasing in the agent count. -/
theorem erlang_c_prob_wait_succ_le {a : ℚ} (ha : 0 < a) (n : ℤ) :
    erlang_c_prob_wait a (n + 1) ≤ erlang_c_prob_wait a n := by
  by_cases hcase : a < (n : ℚ)
  · have hcase2 : a < ((n + 1 : ℤ) : ℚ) := by push_cast; linarith
    rw [erlang_c_prob_wait_eq_clamp ha hcase, erlang_c_prob_wait_eq_clamp ha hcase2]
    apply clamp01_mono
    have hn1 : (1 : ℤ) ≤ n := by
      by_contra hc
      push_neg at hc
      have : (n : ℚ) ≤ 0 := by exact_mod_cast (by omega : n ≤ 0)
      linarith
    have htn : (n + 1).toNat = n.toNat + 1 := by omega
    rw [htn]
    have hantn : a < ((n.toNat : ℕ) : ℚ) := by
      rw [int_toNat_cast_q (by omega)]
      exact hcase
    exact erlangRaw_anti ha hantn
  · have h1 : erlang_c_prob_wait a n = 1 := by
      unfold erlang_c_prob_wait
      by_cases hn : n ≤ 0 ∨ a ≤ 0
      · rw [if_pos hn]
      · rw [if_neg hn, if_pos (not_lt.mp hcase)]
    rw [h1]
    exact erlang_c_prob_wait_le_one a (n + 1)

/-- In the stable regime the service level is the clamped SLA formula. -/
theorem erlang_c_service_level_eq (E : ℚ → ℚ) {a : ℚ} {n : ℤ} {aht thr : ℚ}
    (ht : 0 < thr) (hh : 0 < aht) (ha : 0 < a) (han : a < (n : ℚ)) :
    erlang_c_service_level E a n aht thr =
      clamp01 (1 - erlang_c_prob_wait a n * E (-((n : ℚ) - a) * (thr / aht))) := by
  have hn1 : (1 : ℤ) ≤ n := by
    by_contra hc
    push_neg at hc
    have : (n : ℚ) ≤ 0 := by exact_mod_cast (by omega : n ≤ 0)
    linarith
  unfold erlang_c_service_level
  rw [if_neg (not_le.mpr ht), if_neg (not_le.mpr hh), if_neg (by omega : ¬n ≤ 0),
    if_neg (not_le.mpr ha), if_neg (not_le.mpr han)]

/-- One step of the service-level monotonicity. -/
theorem erlang_c_service_level_succ (E : ℚ → ℚ) (hE : Monotone E)
    (hEpos : ∀ x, 0 < E x) {a aht thr : ℚ}
    (ha : 0 < a) (hh : 0 < aht) (ht : 0 < thr) (n : ℤ) :
    erlang_c_service_level E a n aht thr ≤
      erlang_c_service_level E a (n + 1) aht thr := by
  by_cases hcase : a < (n : ℚ)
  · have hcase2 : a < ((n + 1 : ℤ) : ℚ) := by push_cast; linarith
    rw [erlang_c_service_level_eq E ht hh ha hcase,
      erlang_c_service_level_eq E ht hh ha hcase2]
    apply clamp01_mono
    apply sub_le_sub_left
    have hpw := erlang_c_prob_wait_succ_le ha n
    have harg : -(((n + 1 : ℤ) : ℚ) - a) * (thr / aht) ≤ -((n : ℚ) - a) * (thr / aht) := by
      have hta : 0 < thr / aht := div_pos ht hh
      push_cast
      nlinarith
    exact mul_le_mul hpw (hE harg) (le_of_lt (hEpos _))
      (erlang_c_prob_wait_nonneg a n)
  · have h0 : erlang_c_service_level E a n aht thr = 0 := by
      unfold erlang_c_service_level
      rw [if_neg (not_le.mpr ht), if_neg (not_le.mpr hh)]
      by_cases hn : n ≤ 0
      · rw [if_pos hn]
      · rw [if_neg hn, if_neg (not_le.mpr ha), if_pos (not_lt.mp hcase)]
    rw [h0]
    exact erlang_c_service_level_nonneg E a (n + 1) aht thr

/-- Monotonicity of the exact-rational service level: for fixed `a > 0`,
`aht > 0`, `thr > 0` and any monotone positive stand-in for `exp`, it is
non-decreasing in the integer agent count.  This is the idealized
property behind the claim that a linear scan and a binary search agree;
the float code instead raises `OverflowError` at stable agent counts
past 170 (see the overflow results at the end of the file). -/
theorem erlang_c_service_level_monotone (E : ℚ → ℚ) (hE : Monotone E)
    (hEpos : ∀ x, 0 < E x) (a aht thr : ℚ)
    (ha : 0 < a) (hh : 0 < aht) (ht : 0 < thr)
    {n m : ℤ} (hnm : n ≤ m) :
    erlang_c_service_level E a n aht thr ≤ erlang_c_service_level E a m aht thr := by
  exact Int.le_induction
    (P := fun j => erlang_c_service_level E a n aht thr ≤
      erlang_c_service_level E a j aht thr)
    le_rfl
    (fun k _ ih => le_trans ih (erlang_c_service_level_succ E hE hEpos ha hh ht k))
    m hnm

/-- The rational-model monotonicity instantiated at `a = 1/2`,
`n = 1 ≤ m = 2`, `aht = 300`, `thr = 20`, with `E` the constant-one
function (monotone and positive). -/
theorem erlang_c_service_level_monotone_witness :
    erlang_c_service_level (fun _ => 1) (1 / 2) 1 300 20 ≤
      erlang_c_service_level (fun _ => 1) (1 / 2) 2 300 20 :=
  erlang_c_service_level_monotone (fun _ => 1) monotone_const (fun _ => one_pos)
    (1 / 2) 300 20 (by norm_num) (by norm_num) (by norm_num) (by norm_num)

/-- Model of `erlang_c_service_level` with Python-float overflow tracked:
the guard branches are exact, and the `erlang_c_prob_wait` call
propagates the `OverflowError` that the naive factorial powers raise. -/
def erlang_c_service_level_float (E : ℚ → ℚ) (a : ℚ) (n : ℤ) (aht thr : ℚ) :
    Except String ℚ :=
  if thr ≤ 0 then .ok 0
  else if aht ≤ 0 then .ok 0
  else if n ≤ 0 then .ok 0
  else if a ≤ 0 then .ok 1
  else if (n : ℚ) ≤ a then .ok 0
  else
    match erlang_c_prob_wait_float a n with
    | .error e => .error e
    | .ok pw => .ok (clamp01 (1 - pw * E (-((n : ℚ) - a) * (thr / aht))))

/-- The search loop of `required_agents_for_sla` with exception
propagation: an `OverflowError` raised by a service-level evaluation
aborts the whole call instead of returning a count. -/
def searchAuxFloat (sl : ℕ → Except String ℚ) (target : ℚ) (maxAgents : ℕ) :
    ℕ → ℕ → Except String ℕ
  | 0, _ => .ok maxAgents
  | fuel + 1, n =>
    match sl n with
    | .error e => .error e
    | .ok v => if target ≤ v then .ok n else searchAuxFloat sl target maxAgents fuel (n + 1)

/-- Model of `required_agents_for_sla` with Python-float overflow
tracked. -/
def required_agents_for_sla_float (E : ℚ → ℚ) (contacts : ℚ) (intervalSeconds : ℤ)
    (aht thr target : ℚ) (maxAgents : ℕ) : Except String ℕ :=
  let traffic := trafficOf contacts intervalSeconds aht
  let start := (max 1 (Int.ceil traffic)).toNat
  searchAuxFloat (fun n => erlang_c_service_level_float E traffic (n : ℤ) aht thr)
    target maxAgents (maxAgents + 1 - start) start

/-- One loop iteration succeeds when the base has magnitude at most one
and the factorial fits in a double. -/
theorem erlangLoopBody_ok {a : ℚ} (ha1 : |a| ≤ 1) {k : ℕ} (hk : k ≤ 170) (acc : ℚ) :
    erlangLoopBody a acc k = .ok (acc + a ^ k / ((Nat.factorial k : ℕ) : ℚ)) := by
  unfold erlangLoopBody
  rw [pyPow_ok_of_abs_le_one ha1 k, pyFloatOfNat_factorial_ok hk]

/-- The whole loop succeeds when every index stays at most `170`. -/
theorem erlangLoop_ok {a : ℚ} (ha1 : |a| ≤ 1) :
    ∀ l : List ℕ, (∀ k ∈ l, k ≤ 170) → ∀ acc, ∃ s, erlangLoop a acc l = .ok s := by
  intro l
  induction l with
  | nil => exact fun _ acc => ⟨acc, rfl⟩
  | cons k ks ih =>
    intro hl acc
    unfold erlangLoop
    rw [erlangLoopBody_ok ha1 (hl k (List.mem_cons_self k ks)) acc]
    exact ih (fun x hx => hl x (List.mem_cons_of_mem k hx)) _

/-- The float waiting probability evaluates without overflow in the
stable regime up to 170 agents (for traffic of magnitude at most one). -/
theorem erlang_c_prob_wait_float_ok {a : ℚ} {n : ℤ} (ha : 0 < a) (ha1 : |a| ≤ 1)
    (han : a < (n : ℚ)) (hn : n ≤ 170) :
    ∃ v, erlang_c_prob_wait_float a n = .ok v := by
  have hnq : (0 : ℚ) < (n : ℚ) := lt_trans ha han
  have hn0 : 0 < n := by exact_mod_cast hnq
  unfold erlang_c_prob_wait_float
  rw [if_neg (by push_neg; exact ⟨by omega, ha⟩), if_neg (not_le.mpr han)]
  obtain ⟨s, hs⟩ := erlangLoop_ok ha1 (List.range n.toNat)
    (fun k hk => by
      have := List.mem_range.mp hk
      omega) 0
  rw [hs]
  dsimp only
  rw [pyPow_ok_of_abs_le_one ha1 n.toNat,
    pyFloatOfNat_factorial_ok (by omega : n.toNat ≤ 170)]
  dsimp only
  split_ifs
  · exact ⟨1, rfl⟩
  · exact ⟨_, rfl⟩

/-- At 171 agents the float waiting probability raises `OverflowError`:
the loop completes (factorials up to `170!` fit) but the numerator calls
`float(math.factorial(171))`. -/
theorem erlang_c_prob_wait_float_err_171 {a : ℚ} (ha : 0 < a) (ha1 : |a| ≤ 1) :
    erlang_c_prob_wait_float a 171 = .error "OverflowError" := by
  have ha2 : a ≤ 1 := (abs_le.mp ha1).2
  have h171 : a < ((171 : ℤ) : ℚ) := by push_cast; linarith
  unfold erlang_c_prob_wait_float
  rw [if_neg (by push_neg; exact ⟨by omega, ha⟩), if_neg (not_le.mpr h171)]
  rw [show ((171 : ℤ).toNat) = 171 from rfl]
  obtain ⟨s, hs⟩ := erlangLoop_ok ha1 (List.range 171)
    (fun k hk => by
      have := List.mem_range.mp hk
      omega) 0
  rw [hs]
  dsimp only
  rw [pyPow_ok_of_abs_le_one ha1 171]
  dsimp only
  rw [pyFloatOfNat_factorial171_err]

/-- Up to 170 agents (traffic of magnitude at most one) the float service
level returns a value, and that value is at most `1`. -/
theorem erlang_c_service_level_float_le_one (E : ℚ → ℚ) {a : ℚ} {n : ℤ}
    {aht thr : ℚ} (ha1 : |a| ≤ 1) (hn : n ≤ 170) :
    ∃ v, erlang_c_service_level_float E a n aht thr = .ok v ∧ v ≤ 1 := by
  unfold erlang_c_service_level_float
  split_ifs with h1 h2 h3 h4 h5
  · exact ⟨0, rfl, by norm_num⟩
  · exact ⟨0, rfl, by norm_num⟩
  · exact ⟨0, rfl, by norm_num⟩
  · exact ⟨1, rfl, le_rfl⟩
  · exact ⟨0, rfl, by norm_num⟩
  · obtain ⟨v, hv⟩ := erlang_c_prob_wait_float_ok (not_le.mp h4) ha1 (not_le.mp h5) hn
    rw [hv]
    exact ⟨_, rfl, clamp01_le_one _⟩

/-- At 171 agents the float service level raises `OverflowError` for any
positive AHT and threshold. -/
theorem erlang_c_service_level_float_err_171 (E : ℚ → ℚ) {a aht thr : ℚ}
    (ha : 0 < a) (ha1 : |a| ≤ 1) (hh : 0 < aht) (ht : 0 < thr) :
    erlang_c_service_level_float E a 171 aht thr = .error "OverflowError" := by
  have ha2 : a ≤ 1 := (abs_le.mp ha1).2
  have h171 : ¬((171 : ℤ) : ℚ) ≤ a := by push_cast; linarith
  unfold erlang_c_service_level_float
  rw [if_neg (not_le.mpr ht), if_neg (not_le.mpr hh), if_neg (by omega : ¬(171 : ℤ) ≤ 0),
    if_neg (not_le.mpr ha), if_neg h171, erlang_c_prob_wait_float_err_171 ha ha1]

/-- If every count below `K` evaluates to a service level under the
target and the evaluation at `K` raises, the search raises. -/
theorem searchAuxFloat_err (sl : ℕ → Except String ℚ) (target : ℚ) (maxA K : ℕ)
    (hK : sl K = .error "OverflowError")
    (hbelow : ∀ m, m < K → ∃ v, sl m = .ok v ∧ v < target) :
    ∀ fuel n, n ≤ K → K < n + fuel →
      searchAuxFloat sl target maxA fuel n = .error "OverflowError" := by
  intro fuel
  induction fuel with
  | zero =>
    intro n h1 h2
    exact absurd h2 (by omega)
  | succ f ih =>
    intro n h1 h2
    simp only [searchAuxFloat]
    by_cases hnK : n = K
    · subst hnK
      rw [hK]
    · obtain ⟨v, hok, hlt⟩ := hbelow n (by omega)
      rw [hok]
      dsimp only
      rw [if_neg (not_le.mpr hlt)]
      exact ih (n + 1) (by omega) (by omega)

/-- C6 fails on the code: in an unmet-target run (`contacts = 1`,
`interval = 3600 s`, `aht = 300 s`, `thr = 20 s`, `target = 2`, ceiling
`500`, traffic `1/12`) the loop does not return the ceiling: every count
`n = 1, …, 170` yields a service level at most `1`, below the target, and
at `n = 171` the evaluation raises `OverflowError`
(`float(math.factorial(171))` leaves the double range), aborting
`required_agents_for_sla` — contradicting its own docstring, which
promises `max_agents` when the target cannot be met — for every
exponential stand-in `E`. -/
theorem required_agents_for_sla_unmet_target_overflow (E : ℚ → ℚ) :
    required_agents_for_sla_float E 1 3600 300 20 2 500 = .error "OverflowError" := by
  have habs : |(1 : ℚ) / 12| ≤ 1 := abs_le.mpr ⟨by norm_num, by norm_num⟩
  have htraffic : trafficOf 1 3600 300 = 1 / 12 := by with_unfolding_all decide
  have hstart : (max 1 (Int.ceil ((1 : ℚ) / 12))).toNat = 1 := by with_unfolding_all decide
  unfold required_agents_for_sla_float
  dsimp only
  rw [htraffic, hstart]
  exact searchAuxFloat_err
    (fun n => erlang_c_service_level_float E (1 / 12) (n : ℤ) 300 20) 2 500 171
    (erlang_c_service_level_float_err_171 E (by norm_num) habs (by norm_num) (by norm_num))
    (fun m hm => by
      obtain ⟨v, hv, hle⟩ :=
        @erlang_c_service_level_float_le_one E (1 / 12) ((m : ℕ) : ℤ) 300 20 habs (by omega)
      exact ⟨v, hv, lt_of_le_of_lt hle (by norm_num)⟩)
    (500 + 1 - 1) 1 (by omega) (by omega)

/-- C7 fails on the code: for fixed `a = 1 > 0`, `aht = 300 > 0`,
`thr = 20 > 0` the service level is not even total over the claimed
agent-count domain: it returns a value at `n = 170` but raises
`OverflowError` at `n = 171` (inside the stable regime `0 < a < n`), so
non-decrease over every integer agent count is not a property the program
has; the exact-rational monotonicity lemma above is the intended
behaviour that the overflow bug breaks. -/
theorem erlang_c_service_level_overflow_at_171 (E : ℚ → ℚ) :
    (∃ v, erlang_c_service_level_float E 1 170 300 20 = .ok v) ∧
    erlang_c_service_level_float E 1 171 300 20 = .error "OverflowError" := by
  have habs : |(1 : ℚ)| ≤ 1 := le_of_eq abs_one
  constructor
  · obtain ⟨v, hv, _⟩ :=
      @erlang_c_service_level_float_le_one E 1 170 300 20 habs (by omega)
    exact ⟨v, hv⟩
  · exact erlang_c_service_level_float_err_171 E one_pos habs (by norm_num) (by norm_num)
